import Mathlib

/-!
Shallow embedding of the room/session coordination core of the
guess-the-song server (the Socket.IO event-dispatch module: room registry,
player-session tracker, room state machine, score ledger and broadcast
fan-out). Rooms are a JavaScript `Map` keyed by room code; the embedding
models a `Map` as an association list in insertion order (`alGet`, `alSet`,
`alDelete`), a JavaScript `Set` as a duplicate-free list in insertion order
(`setAdd`, `setRemove`, `dedupFirst`), and each socket handler as a pure
function from server state and payload to the new server state plus the
ordered list of emitted events. `Date.now()` becomes an explicit `now`
argument; the JavaScript falsiness of `0` and `undefined` in expressions
such as `startTime || Date.now()` and `room.currentRound || 1` is written
out as the corresponding `if`/`Option` test. A handler that can throw a
`TypeError` (dereferencing an undefined room) is embedded in `Except`.
String literals from the source are kept except that apostrophes are
elided from human-readable messages.
-/

namespace GuessTheSong

/-- A track as the frontend Song interface describes it. -/
structure Song where
  id : String
  title : String
  artist : String
  previewUrl : String
  imageUrl : String
  externalUrl : String
deriving DecidableEq, Repr

/-- The game-configuration snapshot a client supplies at room creation.
The server reads `amountOfPlayers` (absent or zero falls back to 8 for
`maxPlayers`) and `rounds`; the rest is carried opaquely and re-sent in
spread payloads. -/
structure Settings where
  amountOfPlayers : Option Nat
  rounds : Nat
  genre : String
  guessTime : Nat
deriving DecidableEq, Repr

/-- Per-player score record, as built by `initializePlayerScore`. -/
structure PlayerScore where
  name : String
  avatar : Option String
  points : Int
  previousPoints : Int
  correctAnswers : Int
deriving DecidableEq, Repr

/-- The full round payload persisted as `room.currentRoundData` so late
joiners can request it. -/
structure RoundData where
  song : Option Song
  choices : List String
  answer : String
  songIndex : Option Nat
  multiSongs : Option (List Song)
  shuffleSeed : Option Nat
deriving DecidableEq, Repr

/-- One room of the registry. `gameActive` and `currentRoundData` are
absent (undefined) until first set; absence is `false` and `none`. -/
structure Room where
  players : List String
  playerScores : List (String × PlayerScore)
  maxPlayers : Nat
  settings : Settings
  host : String
  hostSocketId : String
  currentRound : Nat
  isRoundActive : Bool
  isIntermission : Bool
  roundStartTime : Option Nat
  finishedPlayers : List String
  gameActive : Bool
  currentRoundData : Option RoundData
deriving DecidableEq, Repr

/-- The custom fields the server stores on a socket object
(`socket.playerName`, `socket.roomCode`); `delete` turns a field into
`none`. -/
structure SocketInfo where
  playerName : Option String
  roomCode : Option String
deriving DecidableEq, Repr

/-- Whole-server state: the `rooms` map, the `playerRooms` map
(socket id to room code) and `io.sockets.sockets` with each connected
socket in connection order, holding its custom fields. -/
structure ServerState where
  rooms : List (String × Room)
  playerRooms : List (String × String)
  sockets : List (String × SocketInfo)
deriving DecidableEq, Repr

/-- Map lookup (`map.get(key)`). -/
def alGet {α : Type} : List (String × α) → String → Option α
  | [], _ => none
  | (k, v) :: rest, key => if k = key then some v else alGet rest key

/-- Map write (`map.set(key, v)`): update in place when the key is
present, append otherwise. -/
def alSet {α : Type} : List (String × α) → String → α → List (String × α)
  | [], key, v => [(key, v)]
  | (k, w) :: rest, key, v =>
      if k = key then (k, v) :: rest else (k, w) :: alSet rest key v

/-- Map removal (`map.delete(key)`): a JavaScript Map holds at most one
entry per key, so dropping every entry with the key is that removal. -/
def alDelete {α : Type} (l : List (String × α)) (key : String) :
    List (String × α) :=
  l.filter (fun p => decide (p.1 ≠ key))

/-- Set insertion (`set.add(x)`): no effect when present, append
otherwise. -/
def setAdd (l : List String) (x : String) : List String :=
  if x ∈ l then l else l ++ [x]

/-- Set removal (`set.delete(x)`), also `array.splice(indexOf(x), 1)`:
drop the first occurrence. -/
def setRemove : List String → String → List String
  | [], _ => []
  | x :: rest, y => if x = y then rest else x :: setRemove rest y

/-- `new Set(array)`: keep the first occurrence of each element, in
order. -/
def dedupFirst (l : List String) : List String := l.foldl setAdd []

/-- JavaScript `x || d` for an optional number: `undefined` and `0` are
falsy. -/
def jsOr (v : Option Nat) (d : Nat) : Nat :=
  match v with
  | some t => if t = 0 then d else t
  | none => d

/-- JavaScript `x || d` for a number that is always present: `0` is
falsy. -/
def natOr (x d : Nat) : Nat :=
  if x = 0 then d else x

/-- Where an emission goes: `socket.emit` to the requester,
`io.to(code).emit` to every socket in the room channel, or
`socket.to(code).emit` to the channel minus the sender. -/
inductive Target where
  | toSocket (sid : String)
  | toRoom (code : String)
  | toOthers (sid : String) (code : String)
deriving DecidableEq, Repr

/-- A score entry extended with the `isHost` flag, as the leave path
builds `playersWithHost`. -/
structure HostedScore where
  score : PlayerScore
  isHost : Bool
deriving DecidableEq, Repr

/-- The structured payloads of every event the embedded handlers emit,
one constructor per payload shape. -/
inductive Payload where
  | roomCreated (code : String) (rooms : List (String × Room))
  | joinError (message : String)
  | scoreUpdate (scores : List PlayerScore)
  | scoreUpdateHosted (scores : List HostedScore)
  | joinSuccessFull (roomCode : String) (playerName : String)
      (players : List String) (maxPlayers : Nat)
      (amountOfPlayersInRoom : Option Nat)
      (playerScores : List PlayerScore) (host : String)
  | joinSuccessShort (players : List String) (amountOfPlayersInRoom : Nat)
      (host : String)
  | joinActiveGame (settings : Settings) (playerName : String) (isHost : Bool)
      (currentRound : Nat) (isRoundActive : Bool) (isIntermission : Bool)
      (roundStartTime : Option Nat) (players : List String)
      (playerScores : List PlayerScore) (host : String) (gameActive : Bool)
      (currentRoundData : Option RoundData)
  | playersUpdated (players : List String) (playerScores : List PlayerScore)
      (maxPlayers : Nat) (host : String)
  | playersUpdatedHosted (players : List String)
      (playerScores : List HostedScore) (maxPlayers : Nat) (host : String)
  | roomPlayersScores (scores : List PlayerScore)
  | roomPlayersScoresHosted (scores : List HostedScore)
  | totalRounds (n : Nat)
  | roomsSnapshot (rooms : List (String × Room))
  | gameStarted (settings : Settings) (host : String)
  | roundStart (song : Option Song) (choices : List String) (answer : String)
      (startTime : Nat) (songIndex : Option Nat)
      (multiSongs : Option (List Song)) (shuffleSeed : Option Nat)
      (currentRound : Nat) (settings : Settings) (players : List String)
      (playerScores : List PlayerScore) (host : String)
      (isRoundActive : Bool) (isIntermission : Bool) (gameActive : Bool)
  | playerFinishedUpdated (remaining : Nat) (finishedCount : Nat)
  | hostSkippedRound
  | continueToNextRound (nextRound : Nat) (currentRound : Nat)
      (settings : Settings) (players : List String)
      (playerScores : List PlayerScore) (host : String)
      (isRoundActive : Bool) (isIntermission : Bool)
      (roundStartTime : Option Nat)
  | navigateToEndGame
  | currentRoundNull
  | currentRoundData (data : RoundData) (currentRound : Nat) (startTime : Nat)
  | hostChanged (newHost : String) (newHostId : Option String)
      (message : String)
  | playerLeft (playerName : String) (remainingPlayers : List String)
      (newHost : String) (message : String)
deriving DecidableEq, Repr

/-- One emitted event: where it goes, its name, its payload. -/
structure Emission where
  target : Target
  event : String
  payload : Payload
deriving DecidableEq, Repr

/-- Helper initializing a fresh score record (`initializePlayerScore`). -/
def initializePlayerScore (playerName : String) (avatar : Option String) :
    PlayerScore :=
  { name := playerName, avatar := avatar, points := 0, previousPoints := 0,
    correctAnswers := 0 }

/-- The create-room handler. The room object is registered, then mutated
for the single-player auto-join, so the emitted registry snapshot carries
the auto-joined host; registering after the mutation is the same map. -/
def handleCreateRoom (st : ServerState) (sid code : String)
    (settings : Settings) (host : String) (avatar : Option String) :
    ServerState × List Emission :=
  if (alGet st.rooms code).isSome then (st, [])
  else
    let room : Room :=
      { players := [],
        playerScores := [],
        maxPlayers :=
          match settings.amountOfPlayers with
          | some n => if n = 0 then 8 else n
          | none => 8,
        settings := settings,
        host := host,
        hostSocketId := sid,
        currentRound := 1,
        isRoundActive := false,
        isIntermission := false,
        roundStartTime := none,
        finishedPlayers := [],
        gameActive := false,
        currentRoundData := none }
    let room :=
      if settings.amountOfPlayers = some 1 then
        { room with
          players := [host]
          playerScores :=
            alSet room.playerScores host (initializePlayerScore host avatar) }
      else room
    let rooms := alSet st.rooms code room
    ({ st with rooms := rooms },
      [⟨Target.toSocket sid, "room-created", Payload.roomCreated code rooms⟩])

/-- The join handler. Note the host-reconnect re-bind of `hostSocketId`
happens before the full-room and duplicate-name validation. -/
def handleJoin (st : ServerState) (sid code playerName : String)
    (avatar : Option String) : ServerState × List Emission :=
  match alGet st.rooms code with
  | none =>
      (st, [⟨Target.toSocket sid, "join-error",
        Payload.joinError ("Room " ++ code ++ " does not exist!")⟩])
  | some room0 =>
      let room1 :=
        if room0.host = playerName then { room0 with hostSocketId := sid }
        else room0
      let st1 := { st with rooms := alSet st.rooms code room1 }
      if room1.players.length ≥ room1.maxPlayers then
        (st1, [⟨Target.toSocket sid, "join-error",
          Payload.joinError ("Room is full! (" ++
            toString room1.players.length ++ "/" ++
            toString room1.maxPlayers ++ " players)")⟩])
      else if playerName ∈ room1.players then
        (st1, [⟨Target.toSocket sid, "join-error",
          Payload.joinError ("Player name " ++ playerName ++
            " is already in this room!")⟩])
      else
        let st2 :=
          { st1 with
            sockets := alSet st1.sockets sid
              { playerName := some playerName, roomCode := some code },
            playerRooms := alSet st1.playerRooms sid code }
        let room2 := { room1 with players := room1.players ++ [playerName] }
        let room3 :=
          if (alGet room2.playerScores playerName).isSome then room2
          else
            { room2 with
              playerScores :=
                alSet room2.playerScores playerName
                  (initializePlayerScore playerName avatar) }
        let st3 := { st2 with rooms := alSet st2.rooms code room3 }
        let allScores := room3.playerScores.map Prod.snd
        let scoreEmits : List Emission :=
          if room3.playerScores.length > 0 then
            [⟨Target.toRoom code, "score-update", Payload.scoreUpdate allScores⟩]
          else []
        let successEmit : Emission :=
          ⟨Target.toRoom code, "join-success",
            Payload.joinSuccessFull code playerName room3.players
              room3.maxPlayers room3.settings.amountOfPlayers allScores
              room3.host⟩
        let scoreEmits2 : List Emission :=
          if room3.playerScores.length > 0 then
            [⟨Target.toSocket sid, "score-update", Payload.scoreUpdate allScores⟩]
          else []
        if room3.gameActive then
          (st3, scoreEmits ++ [successEmit] ++ scoreEmits2 ++
            [⟨Target.toSocket sid, "join-active-game",
              Payload.joinActiveGame room3.settings playerName false
                (natOr room3.currentRound 1)
                room3.isRoundActive room3.isIntermission room3.roundStartTime
                room3.players allScores room3.host room3.gameActive
                room3.currentRoundData⟩,
             ⟨Target.toOthers sid code, "players-updated",
               Payload.playersUpdated room3.players allScores room3.maxPlayers
                 room3.host⟩])
        else
          (st3, scoreEmits ++ [successEmit] ++ scoreEmits2 ++
            [⟨Target.toSocket sid, "join-success",
              Payload.joinSuccessShort room3.players room3.maxPlayers
                room3.host⟩])

/-- The get-room-players-scores handler. -/
def handleGetRoomPlayersScores (st : ServerState) (sid code : String) :
    ServerState × List Emission :=
  match alGet st.rooms code with
  | none =>
      (st, [⟨Target.toSocket sid, "room-players-scores",
        Payload.roomPlayersScores []⟩])
  | some room =>
      (st, [⟨Target.toRoom code, "room-players-scores",
        Payload.roomPlayersScores (room.playerScores.map Prod.snd)⟩])

/-- The get-total-rounds handler (unknown room falls back to 5). -/
def handleGetTotalRounds (st : ServerState) (sid code : String) :
    ServerState × List Emission :=
  match alGet st.rooms code with
  | none => (st, [⟨Target.toSocket sid, "total-rounds", Payload.totalRounds 5⟩])
  | some room =>
      (st, [⟨Target.toSocket sid, "total-rounds",
        Payload.totalRounds room.settings.rounds⟩])

/-- The get-rooms handler: broadcast the whole registry to the channel. -/
def handleGetRooms (st : ServerState) (code : String) :
    ServerState × List Emission :=
  (st, [⟨Target.toRoom code, "rooms", Payload.roomsSnapshot st.rooms⟩])

/-- The update-score handler: last-write-wins overwrite of one player
score; silent when the room or the player entry is missing. -/
def handleUpdateScore (st : ServerState) (code playerName : String)
    (points : Int) (correctAnswers : Int) : ServerState × List Emission :=
  match alGet st.rooms code with
  | none => (st, [])
  | some room =>
      match alGet room.playerScores playerName with
      | none => (st, [])
      | some ps =>
          let ps2 := { ps with points := points, correctAnswers := correctAnswers }
          let room2 :=
            { room with playerScores := alSet room.playerScores playerName ps2 }
          ({ st with rooms := alSet st.rooms code room2 },
            [⟨Target.toRoom code, "score-update",
              Payload.scoreUpdate (room2.playerScores.map Prod.snd)⟩])

/-- The start-game handler: no sender check; silent when the room is
unknown. -/
def handleStartGame (st : ServerState) (code : String) :
    ServerState × List Emission :=
  match alGet st.rooms code with
  | none => (st, [])
  | some room =>
      let room2 :=
        { room with
          gameActive := true
          currentRound := 1
          isRoundActive := false
          isIntermission := true
          roundStartTime := none }
      ({ st with rooms := alSet st.rooms code room2 },
        [⟨Target.toRoom code, "game-started",
          Payload.gameStarted room2.settings room2.host⟩])

/-- The host-start-round handler: snapshot `previousPoints`, activate the
round, stamp the start time, clear `finishedPlayers`, persist the round
payload, fan out the round plus the authoritative `currentRound`. -/
def handleHostStartRound (now : Nat) (st : ServerState) (code : String)
    (data : RoundData) (startTime : Option Nat) :
    ServerState × List Emission :=
  match alGet st.rooms code with
  | none => (st, [])
  | some room =>
      let t := jsOr startTime now
      let cr := natOr room.currentRound 1
      let room2 :=
        { room with
          playerScores := room.playerScores.map
            (fun p => (p.1, { p.2 with previousPoints := p.2.points })),
          isRoundActive := true,
          isIntermission := false,
          roundStartTime := some t,
          gameActive := true,
          currentRound := cr,
          finishedPlayers := [],
          currentRoundData := some data }
      ({ st with rooms := alSet st.rooms code room2 },
        [⟨Target.toRoom code, "round-start",
          Payload.roundStart data.song data.choices data.answer t
            data.songIndex data.multiSongs data.shuffleSeed cr room2.settings
            room2.players (room2.playerScores.map Prod.snd) room2.host
            true false true⟩,
         ⟨Target.toRoom code, "player-finished-updated",
           Payload.playerFinishedUpdated
             (room2.players.length - room2.finishedPlayers.length)
             room2.finishedPlayers.length⟩])

/-- The player-finished-round handler: record the supplied name (with no
membership check) and broadcast the remaining count (clamped at zero,
which truncated Nat subtraction gives). -/
def handlePlayerFinishedRound (st : ServerState) (code playerName : String) :
    ServerState × List Emission :=
  match alGet st.rooms code with
  | none => (st, [])
  | some room =>
      let finished := setAdd room.finishedPlayers playerName
      let room2 := { room with finishedPlayers := finished }
      ({ st with rooms := alSet st.rooms code room2 },
        [⟨Target.toRoom code, "player-finished-updated",
          Payload.playerFinishedUpdated
            (room2.players.length - finished.length) finished.length⟩])

/-- The host-skip-round handler: the one host-only event with a sender
check (socket id against `hostSocketId`, or stored player name against
`host`); a failed check only logs. -/
def handleHostSkipRound (st : ServerState) (sid code : String) :
    ServerState × List Emission :=
  let sockName := (alGet st.sockets sid).bind SocketInfo.playerName
  match alGet st.rooms code with
  | none => (st, [])
  | some room =>
      if room.hostSocketId = sid ∨ sockName = some room.host then
        let room2 := { room with finishedPlayers := dedupFirst room.players }
        ({ st with rooms := alSet st.rooms code room2 },
          [⟨Target.toRoom code, "host-skipped-round", Payload.hostSkippedRound⟩,
           ⟨Target.toRoom code, "player-finished-updated",
             Payload.playerFinishedUpdated 0 room.players.length⟩])
      else (st, [])

/-- The host-continue-round handler. The mutation is guarded by the room
lookup, but the broadcast payload built after the guard dereferences
`room.settings` unconditionally: with an unknown room code this is a
TypeError on undefined, embedded as `Except.error`. -/
def handleHostContinueRound (now : Nat) (st : ServerState) (code : String)
    (nextRound : Nat) : Except String (ServerState × List Emission) :=
  match alGet st.rooms code with
  | none =>
      Except.error "TypeError: cannot read properties of undefined (reading settings)"
  | some room =>
      let room2 :=
        { room with
          currentRound := nextRound
          isRoundActive := true
          isIntermission := false
          roundStartTime := some now
          finishedPlayers := [] }
      Except.ok
        ({ st with rooms := alSet st.rooms code room2 },
          [⟨Target.toRoom code, "continue-to-next-round",
            Payload.continueToNextRound nextRound nextRound room2.settings
              room2.players (room2.playerScores.map Prod.snd) room2.host
              true false room2.roundStartTime⟩])

/-- The host-end-game handler: no room lookup and no sender check; the
navigation signal goes to the channel minus the sender, then to the
sender. -/
def handleHostEndGame (st : ServerState) (sid code : String) :
    ServerState × List Emission :=
  (st, [⟨Target.toOthers sid code, "navigate-to-end-game",
      Payload.navigateToEndGame⟩,
    ⟨Target.toSocket sid, "navigate-to-end-game", Payload.navigateToEndGame⟩])

/-- The get-current-round recovery query: a null signal when the room is
unknown or no round was ever stored, else the stored payload merged with
the authoritative round number and start time. -/
def handleGetCurrentRound (now : Nat) (st : ServerState) (sid code : String) :
    ServerState × List Emission :=
  match alGet st.rooms code with
  | none =>
      (st, [⟨Target.toSocket sid, "current-round", Payload.currentRoundNull⟩])
  | some room =>
      match room.currentRoundData with
      | none =>
          (st, [⟨Target.toSocket sid, "current-round", Payload.currentRoundNull⟩])
      | some data =>
          (st, [⟨Target.toSocket sid, "current-round",
            Payload.currentRoundData data (natOr room.currentRound 1)
              (jsOr room.roundStartTime now)⟩])

/-- The fields of the leaving socket (`socket.playerName`,
`socket.roomCode`; absent for a socket the registry does not know). -/
def leaveSocket (st : ServerState) (sid : String) : SocketInfo :=
  (alGet st.sockets sid).getD { playerName := none, roomCode := none }

/-- The room code a leave or disconnect resolves
(`socket.roomCode || playerRooms.get(socket.id)`). -/
def leaveRoomCode (st : ServerState) (sid : String) : Option String :=
  match (leaveSocket st sid).roomCode with
  | some c => some c
  | none => alGet st.playerRooms sid

/-- The shared leave-cleanup path (`handlePlayerLeaving`), run by both the
explicit leaveRoom event and the transport disconnect. -/
def handlePlayerLeaving (st : ServerState) (sid : String) :
    ServerState × List Emission :=
  let sock := leaveSocket st sid
  match leaveRoomCode st sid with
  | none => (st, [])
  | some roomCode =>
      match alGet st.rooms roomCode with
      | none => (st, [])
      | some room =>
          match sock.playerName with
          | none => (st, [])
          | some playerName =>
              if playerName ∈ room.players then
                let players := setRemove room.players playerName
                let scores := alDelete room.playerScores playerName
                let finished := setRemove room.finishedPlayers playerName
                let st1 :=
                  { st with
                    playerRooms := alDelete st.playerRooms sid,
                    sockets := alSet st.sockets sid
                      { playerName := none, roomCode := none } }
                match players with
                | [] => ({ st1 with rooms := alDelete st1.rooms roomCode }, [])
                | newHead :: _ =>
                    let hostTransfer : Option (String × Option String) :=
                      if room.host = playerName then
                        let newHostSock := st1.sockets.find?
                          (fun p => decide (p.2.playerName = some newHead ∧
                            p.2.roomCode = some roomCode))
                        some (newHead, newHostSock.map Prod.fst)
                      else none
                    let room2 : Room :=
                      { room with
                        players := players
                        playerScores := scores
                        finishedPlayers := finished
                        host :=
                          match hostTransfer with
                          | some (h, _) => h
                          | none => room.host
                        hostSocketId :=
                          match hostTransfer with
                          | some (_, some hsid) => hsid
                          | _ => room.hostSocketId }
                    let hostEmits : List Emission :=
                      match hostTransfer with
                      | some (h, hsid) =>
                          [⟨Target.toRoom roomCode, "hostChanged",
                            Payload.hostChanged h hsid (h ++ " is now the host")⟩]
                      | none => []
                    let playersWithHost := room2.playerScores.map
                      (fun p => HostedScore.mk p.2 (decide (p.2.name = room2.host)))
                    let scoreEmits : List Emission :=
                      if room2.playerScores.length > 0 then
                        [⟨Target.toRoom roomCode, "score-update",
                          Payload.scoreUpdateHosted playersWithHost⟩,
                         ⟨Target.toRoom roomCode, "room-players-scores",
                           Payload.roomPlayersScoresHosted playersWithHost⟩]
                      else []
                    ({ st1 with rooms := alSet st1.rooms roomCode room2 },
                      hostEmits ++
                      [⟨Target.toRoom roomCode, "playerLeft",
                        Payload.playerLeft playerName players room2.host
                          (playerName ++ " left the game")⟩,
                       ⟨Target.toRoom roomCode, "players-updated",
                         Payload.playersUpdatedHosted players playersWithHost
                           room2.maxPlayers room2.host⟩] ++
                      scoreEmits)
              else (st, [])

/-- The client-to-server event surface of the coordination core. Every
constructor carries the sender socket id first. The unused
`totalRounds` field of host-continue-round is carried for fidelity. -/
inductive Event where
  | createRoom (sid code : String) (settings : Settings) (host : String)
      (avatar : Option String)
  | join (sid code playerName : String) (avatar : Option String)
  | getRoomPlayersScores (sid code : String)
  | getTotalRounds (sid code : String)
  | getRooms (sid code : String)
  | updateScore (sid code playerName : String) (points : Int)
      (correctAnswers : Int)
  | startGame (sid code : String)
  | hostStartRound (sid code : String) (data : RoundData)
      (startTime : Option Nat)
  | playerFinishedRound (sid code playerName : String)
  | hostSkipRound (sid code : String)
  | hostContinueRound (sid code : String) (nextRound totalRounds : Nat)
  | hostEndGame (sid code : String)
  | getCurrentRound (sid code : String)
  | leaveRoom (sid : String)
  | disconnect (sid : String)
deriving DecidableEq, Repr

/-- Dispatch one inbound event, as the single-threaded server runs one
handler to completion. Disconnect additionally removes the socket from
the connected-socket registry after the shared cleanup path. -/
def applyEvent (now : Nat) (st : ServerState) (e : Event) :
    Except String (ServerState × List Emission) :=
  match e with
  | .createRoom sid code settings host avatar =>
      Except.ok (handleCreateRoom st sid code settings host avatar)
  | .join sid code playerName avatar =>
      Except.ok (handleJoin st sid code playerName avatar)
  | .getRoomPlayersScores sid code =>
      Except.ok (handleGetRoomPlayersScores st sid code)
  | .getTotalRounds sid code => Except.ok (handleGetTotalRounds st sid code)
  | .getRooms _ code => Except.ok (handleGetRooms st code)
  | .updateScore _ code playerName points correctAnswers =>
      Except.ok (handleUpdateScore st code playerName points correctAnswers)
  | .startGame _ code => Except.ok (handleStartGame st code)
  | .hostStartRound _ code data startTime =>
      Except.ok (handleHostStartRound now st code data startTime)
  | .playerFinishedRound _ code playerName =>
      Except.ok (handlePlayerFinishedRound st code playerName)
  | .hostSkipRound sid code => Except.ok (handleHostSkipRound st sid code)
  | .hostContinueRound _ code nextRound _ =>
      handleHostContinueRound now st code nextRound
  | .hostEndGame sid code => Except.ok (handleHostEndGame st sid code)
  | .getCurrentRound sid code =>
      Except.ok (handleGetCurrentRound now st sid code)
  | .leaveRoom sid => Except.ok (handlePlayerLeaving st sid)
  | .disconnect sid =>
      let r := handlePlayerLeaving st sid
      Except.ok ({ r.1 with sockets := alDelete r.1.sockets sid }, r.2)

/-- Run a sequence of events, stopping at the first thrown TypeError and
concatenating the emissions. -/
def applyEvents (now : Nat) (st : ServerState) :
    List Event → Except String (ServerState × List Emission)
  | [] => Except.ok (st, [])
  | e :: rest =>
      match applyEvent now st e with
      | .error m => Except.error m
      | .ok (st1, ems) =>
          match applyEvents now st1 rest with
          | .error m => Except.error m
          | .ok (st2, ems2) => Except.ok (st2, ems ++ ems2)

/-- The invariant of one room that the spec asserts: `finishedPlayers` is
a set (no duplicates, as a JavaScript Set guarantees) whose members are
all current players. -/
def FinishedInv (room : Room) : Prop :=
  room.finishedPlayers.Nodup ∧ ∀ p ∈ room.finishedPlayers, p ∈ room.players

/-- `FinishedInv` for every registered room. -/
def RoomsInv (rooms : List (String × Room)) : Prop :=
  ∀ e ∈ rooms, FinishedInv e.2

/-- A player-finished-round event names a current member of its room (the
clients only ever report their own name; the handler does not check). -/
def EventNamesMember (st : ServerState) (e : Event) : Prop :=
  ∀ sid code pl, e = Event.playerFinishedRound sid code pl →
    ∀ room, alGet st.rooms code = some room → pl ∈ room.players

/-! ### Concrete fixtures for counterexamples and witnesses -/

/-- A sample settings snapshot. -/
def settingsW : Settings :=
  { amountOfPlayers := some 2, rounds := 5, genre := "kpop", guessTime := 30 }

/-- A sample track. -/
def songW : Song :=
  { id := "t1", title := "Song One", artist := "Artist", previewUrl := "p",
    imageUrl := "i", externalUrl := "e" }

/-- A sample round payload. -/
def rdW : RoundData :=
  { song := some songW, choices := ["Song One", "Song Two"],
    answer := "Song One", songIndex := some 0, multiSongs := none,
    shuffleSeed := some 3 }

/-- A sample two-player room hosted by A with some accumulated score. -/
def roomW : Room :=
  { players := ["A", "B"],
    playerScores :=
      [("A", { name := "A", avatar := none, points := 7, previousPoints := 2,
               correctAnswers := 1 }),
       ("B", { name := "B", avatar := some "a2", points := 4,
               previousPoints := 4, correctAnswers := 1 })],
    maxPlayers := 2,
    settings := settingsW,
    host := "A",
    hostSocketId := "s1",
    currentRound := 2,
    isRoundActive := false,
    isIntermission := true,
    roundStartTime := some 50,
    finishedPlayers := [],
    gameActive := true,
    currentRoundData := none }

/-- A server state holding `roomW` under code R with both players
connected. -/
def stW : ServerState :=
  { rooms := [("R", roomW)],
    playerRooms := [("s1", "R"), ("s2", "R")],
    sockets := [("s1", { playerName := some "A", roomCode := some "R" }),
                ("s2", { playerName := some "B", roomCode := some "R" })] }

/-- An initial server state with three connected sockets and no rooms. -/
def st0 : ServerState :=
  { rooms := [],
    playerRooms := [],
    sockets := [("s1", { playerName := none, roomCode := none }),
                ("s2", { playerName := none, roomCode := none }),
                ("s3", { playerName := none, roomCode := none })] }

/-- Room creation and both joins for code R, from `st0`. -/
def traceSetup : List Event :=
  [Event.createRoom "s1" "R" settingsW "A" none,
   Event.join "s1" "R" "A" none,
   Event.join "s2" "R" "B" none]

/-! ### Lemmas about the map and set embeddings -/

theorem alGet_alSet {α : Type} (l : List (String × α)) (k c : String) (v : α) :
    alGet (alSet l k v) c = if k = c then some v else alGet l c := by
  induction l with
  | nil => by_cases h : k = c <;> simp [alSet, alGet, h]
  | cons hd tl ih =>
      obtain ⟨k0, v0⟩ := hd
      by_cases h0 : k0 = k
      · subst h0
        by_cases h : k0 = c <;> simp [alSet, alGet, h]
      · by_cases h : k0 = c
        · subst h
          have hkc : ¬ k = k0 := fun hh => h0 hh.symm
          simp [alSet, alGet, h0, hkc]
        · simp [alSet, alGet, h0, h, ih]

theorem alGet_alSet_self {α : Type} (l : List (String × α)) (k : String)
    (v : α) : alGet (alSet l k v) k = some v := by
  simp [alGet_alSet]

theorem alGet_alDelete {α : Type} (l : List (String × α)) (k c : String) :
    alGet (alDelete l k) c = if k = c then none else alGet l c := by
  induction l with
  | nil => by_cases h : k = c <;> simp [alDelete, alGet, h]
  | cons hd tl ih =>
      obtain ⟨k0, v0⟩ := hd
      simp only [alDelete, decide_not] at ih ⊢
      rw [List.filter_cons]
      by_cases h0 : k0 = k
      · subst h0
        by_cases h : k0 = c
        · subst h
          simpa using ih
        · simp [alGet, h, ih]
      · by_cases h : k0 = c
        · subst h
          have hkc : ¬ k = k0 := fun hh => h0 hh.symm
          simp [h0, alGet, hkc]
        · simp [h0, alGet, h, ih]

theorem mem_alSet {α : Type} {l : List (String × α)} {k : String} {v : α}
    {e : String × α} (h : e ∈ alSet l k v) : e ∈ l ∨ e = (k, v) := by
  induction l with
  | nil => simpa [alSet] using h
  | cons hd tl ih =>
      obtain ⟨k0, v0⟩ := hd
      by_cases h0 : k0 = k
      · subst h0
        rcases (by simpa [alSet] using h : e = (k0, v) ∨ e ∈ tl) with h1 | h1
        · exact Or.inr h1
        · exact Or.inl (List.mem_cons_of_mem _ h1)
      · rcases (by simpa [alSet, h0] using h : e = (k0, v0) ∨ e ∈ alSet tl k v)
          with h1 | h1
        · exact Or.inl (by simp [h1])
        · rcases ih h1 with h2 | h2
          · exact Or.inl (List.mem_cons_of_mem _ h2)
          · exact Or.inr h2

theorem mem_alDelete {α : Type} {l : List (String × α)} {k : String}
    {e : String × α} (h : e ∈ alDelete l k) : e ∈ l :=
  List.mem_of_mem_filter h

theorem alGet_mem {α : Type} {l : List (String × α)} {c : String} {v : α}
    (h : alGet l c = some v) : (c, v) ∈ l := by
  induction l with
  | nil => simp [alGet] at h
  | cons hd tl ih =>
      obtain ⟨k0, v0⟩ := hd
      by_cases h0 : k0 = c
      · subst h0
        simp [alGet] at h
        simp [h]
      · simp [alGet, h0] at h
        exact List.mem_cons_of_mem _ (ih h)

theorem alGet_map {α β : Type} (l : List (String × α)) (f : α → β)
    (c : String) :
    alGet (l.map fun p => (p.1, f p.2)) c = (alGet l c).map f := by
  induction l with
  | nil => simp [alGet]
  | cons hd tl ih =>
      obtain ⟨k0, v0⟩ := hd
      by_cases h0 : k0 = c <;> simp [alGet, h0, ih]

theorem alGet_map_prevPoints (l : List (String × PlayerScore)) (c : String) :
    alGet (l.map fun p => (p.1, { p.2 with previousPoints := p.2.points })) c =
      (alGet l c).map fun ps => { ps with previousPoints := ps.points } := by
  induction l with
  | nil => simp [alGet]
  | cons hd tl ih =>
      obtain ⟨k0, v0⟩ := hd
      by_cases h0 : k0 = c <;> simp [alGet, h0, ih]

theorem mem_setAdd {l : List String} {x y : String} :
    y ∈ setAdd l x ↔ y ∈ l ∨ y = x := by
  by_cases h : x ∈ l
  · simp only [setAdd, if_pos h]
    constructor
    · exact Or.inl
    · rintro (h1 | rfl) <;> [exact h1; exact h]
  · simp [setAdd, if_neg h]

theorem nodup_setAdd {l : List String} {x : String} (h : l.Nodup) :
    (setAdd l x).Nodup := by
  by_cases hx : x ∈ l
  · simpa [setAdd, if_pos hx] using h
  · simp only [setAdd, if_neg hx]
    refine List.nodup_append.2 ⟨h, List.nodup_singleton x, ?_⟩
    intro a ha hax
    rw [List.mem_singleton] at hax
    exact hx (hax ▸ ha)

theorem mem_setRemove {l : List String} {x y : String}
    (h : y ∈ setRemove l x) : y ∈ l := by
  induction l with
  | nil => simp [setRemove] at h
  | cons hd tl ih =>
      by_cases h0 : hd = x
      · exact List.mem_cons_of_mem _ (by simpa [setRemove, h0] using h)
      · rcases (by simpa [setRemove, h0] using h : y = hd ∨ y ∈ setRemove tl x)
          with h1 | h1
        · simp [h1]
        · exact List.mem_cons_of_mem _ (ih h1)

theorem mem_setRemove_of_ne {l : List String} {x y : String} (h : y ∈ l)
    (hne : y ≠ x) : y ∈ setRemove l x := by
  induction l with
  | nil => simp at h
  | cons hd tl ih =>
      by_cases h0 : hd = x
      · subst h0
        rcases List.mem_cons.1 h with rfl | h1
        · exact absurd rfl hne
        · simpa [setRemove] using h1
      · rcases List.mem_cons.1 h with rfl | h1
        · simp [setRemove, h0]
        · simp [setRemove, h0, ih h1]

theorem nodup_setRemove {l : List String} {x : String} (h : l.Nodup) :
    (setRemove l x).Nodup := by
  induction l with
  | nil => simp [setRemove]
  | cons hd tl ih =>
      by_cases h0 : hd = x
      · simpa [setRemove, h0] using h.of_cons
      · simp only [setRemove, if_neg h0]
        exact List.Nodup.cons
          (fun hmem => (List.nodup_cons.1 h).1 (mem_setRemove hmem))
          (ih (List.nodup_cons.1 h).2)

theorem not_mem_setRemove_self {l : List String} {x : String}
    (h : l.Nodup) : x ∉ setRemove l x := by
  induction l with
  | nil => simp [setRemove]
  | cons hd tl ih =>
      by_cases h0 : hd = x
      · subst h0
        simpa [setRemove] using (List.nodup_cons.1 h).1
      · simp only [setRemove, if_neg h0, List.mem_cons]
        rintro (rfl | hmem)
        · exact h0 rfl
        · exact ih (List.nodup_cons.1 h).2 hmem

theorem mem_foldl_setAdd {l acc : List String} {y : String}
    (h : y ∈ l.foldl setAdd acc) : y ∈ acc ∨ y ∈ l := by
  induction l generalizing acc with
  | nil => exact Or.inl (by simpa using h)
  | cons hd tl ih =>
      rcases ih (by simpa using h) with h1 | h1
      · rcases mem_setAdd.1 h1 with h2 | h2
        · exact Or.inl h2
        · exact Or.inr (by simp [h2])
      · exact Or.inr (List.mem_cons_of_mem _ h1)

theorem mem_dedupFirst {l : List String} {y : String}
    (h : y ∈ dedupFirst l) : y ∈ l := by
  rcases mem_foldl_setAdd (by simpa [dedupFirst] using h) with h1 | h1
  · simp at h1
  · exact h1

theorem nodup_foldl_setAdd (l : List String) {acc : List String}
    (h : acc.Nodup) : (l.foldl setAdd acc).Nodup := by
  induction l generalizing acc with
  | nil => simpa using h
  | cons hd tl ih => simpa using ih (nodup_setAdd h)

theorem nodup_dedupFirst (l : List String) : (dedupFirst l).Nodup :=
  nodup_foldl_setAdd l List.nodup_nil

/-! ### Generic helpers for the event-indexed invariants -/

theorem ok_state_eq {x : ServerState × List Emission} {c : ServerState}
    {d : List Emission}
    (h : (Except.ok x : Except String (ServerState × List Emission)) =
      Except.ok (c, d)) : x.1 = c := by
  injection h with h1
  exact congrArg Prod.fst h1

theorem alGet_alSet_cases {α : Type} {l : List (String × α)} {k c : String}
    {v w : α} (h1 : alGet (alSet l k v) c = some w) :
    (k = c ∧ w = v) ∨ (k ≠ c ∧ alGet l c = some w) := by
  rw [alGet_alSet] at h1
  by_cases hk : k = c
  · rw [if_pos hk] at h1
    exact Or.inl ⟨hk, (Option.some.inj h1).symm⟩
  · rw [if_neg hk] at h1
    exact Or.inr ⟨hk, h1⟩

theorem alGet_alDelete_cases {α : Type} {l : List (String × α)}
    {k c : String} {w : α} (h1 : alGet (alDelete l k) c = some w) :
    k ≠ c ∧ alGet l c = some w := by
  rw [alGet_alDelete] at h1
  by_cases hk : k = c
  · rw [if_pos hk] at h1; cases h1
  · rw [if_neg hk] at h1; exact ⟨hk, h1⟩

theorem roomsInv_alSet {rooms : List (String × Room)} {code : String}
    {room : Room} (hInv : RoomsInv rooms) (hroom : FinishedInv room) :
    RoomsInv (alSet rooms code room) := by
  intro e he
  rcases mem_alSet he with h1 | h1
  · exact hInv e h1
  · rw [h1]
    exact hroom

theorem roomsInv_alDelete {rooms : List (String × Room)} {code : String}
    (hInv : RoomsInv rooms) : RoomsInv (alDelete rooms code) :=
  fun e he => hInv e (mem_alDelete he)

theorem roomsInv_get {rooms : List (String × Room)} {code : String}
    {room : Room} (hInv : RoomsInv rooms)
    (h : alGet rooms code = some room) : FinishedInv room :=
  hInv _ (alGet_mem h)

theorem getRoomPlayersScores_state (st : ServerState) (sid code : String) :
    (handleGetRoomPlayersScores st sid code).1 = st := by
  unfold handleGetRoomPlayersScores
  cases alGet st.rooms code <;> rfl

theorem getTotalRounds_state (st : ServerState) (sid code : String) :
    (handleGetTotalRounds st sid code).1 = st := by
  unfold handleGetTotalRounds
  cases alGet st.rooms code <;> rfl

theorem getCurrentRound_state (now : Nat) (st : ServerState)
    (sid code : String) : (handleGetCurrentRound now st sid code).1 = st := by
  unfold handleGetCurrentRound
  cases alGet st.rooms code with
  | none => rfl
  | some room =>
      dsimp only
      cases room.currentRoundData <;> rfl

/-! ### C5: host-start-round snapshots the round-delta baseline -/

/-- C5: after host-start-round on an existing room, every player score
entry of that room has `previousPoints` equal to the `points` value it
held immediately before the event, and the `points` field itself (with
name, avatar and correctAnswers) is unchanged, for all players. -/
theorem hostStartRound_sets_previousPoints (now : Nat) (st : ServerState)
    (sid code : String) (data : RoundData) (startTime : Option Nat)
    (room : Room) (h : alGet st.rooms code = some room) :
    ∃ st1 ems room1,
      applyEvent now st (Event.hostStartRound sid code data startTime) =
        Except.ok (st1, ems) ∧
      alGet st1.rooms code = some room1 ∧
      ∀ n ps, alGet room.playerScores n = some ps →
        alGet room1.playerScores n =
          some { ps with previousPoints := ps.points } := by
  simp only [applyEvent, handleHostStartRound, h]
  refine ⟨_, _, _, rfl, alGet_alSet_self _ _ _, ?_⟩
  intro n ps hps
  dsimp only
  rw [alGet_map_prevPoints, hps]
  rfl

/-- Witness for C5 at the concrete two-player room. -/
theorem hostStartRound_sets_previousPoints_witness :
    ∃ st1 ems room1,
      applyEvent 100 stW (Event.hostStartRound "s1" "R" rdW (some 60)) =
        Except.ok (st1, ems) ∧
      alGet st1.rooms "R" = some room1 ∧
      ∀ n ps, alGet roomW.playerScores n = some ps →
        alGet room1.playerScores n =
          some { ps with previousPoints := ps.points } :=
  hostStartRound_sets_previousPoints 100 stW "s1" "R" rdW (some 60) roomW
    (by decide)

/-! ### C10: update-score frame conditions -/

/-- C10: update-score on an existing room overwrites exactly the named
player score entry with the supplied points and correctAnswers (keeping
its name, avatar, previousPoints), leaves every other score entry and
every other room field untouched, and does nothing and emits nothing
when the supplied name has no score entry. -/
theorem updateScore_overwrites_one_entry (st : ServerState)
    (code p q : String) (pts ca pts2 ca2 : Int) (room : Room)
    (ps : PlayerScore)
    (h : alGet st.rooms code = some room)
    (hp : alGet room.playerScores p = some ps)
    (hq : alGet room.playerScores q = none) :
    handleUpdateScore st code p pts ca =
      ({ st with
         rooms := alSet st.rooms code
                    ({ room with
                       playerScores := alSet room.playerScores p
                                         ({ ps with
                                            points := pts,
                                            correctAnswers := ca }) }) },
        [⟨Target.toRoom code, "score-update",
          Payload.scoreUpdate ((alSet room.playerScores p
            ({ ps with points := pts, correctAnswers := ca })).map Prod.snd)⟩]) ∧
    (∀ r, r ≠ p →
      alGet (alSet room.playerScores p
        ({ ps with points := pts, correctAnswers := ca })) r =
      alGet room.playerScores r) ∧
    handleUpdateScore st code q pts2 ca2 = (st, []) := by
  refine ⟨?_, ?_, ?_⟩
  · simp only [handleUpdateScore, h, hp]
  · intro r hr
    rw [alGet_alSet, if_neg (fun hh => hr hh.symm)]
  · simp only [handleUpdateScore, h, hq]

/-- Witness for C10: update A to 12 points in the concrete room; Z has no
entry there. -/
theorem updateScore_overwrites_one_entry_witness :
    handleUpdateScore stW "R" "A" 12 3 =
      ({ stW with
         rooms := alSet stW.rooms "R"
                    ({ roomW with
                       playerScores :=
                         alSet roomW.playerScores "A"
                           ({ name := "A", avatar := none, points := 12,
                              previousPoints := 2, correctAnswers := 3 }) }) },
        [⟨Target.toRoom "R", "score-update",
          Payload.scoreUpdate ((alSet roomW.playerScores "A"
            ({ name := "A", avatar := none, points := 12, previousPoints := 2,
               correctAnswers := 3 })).map Prod.snd)⟩]) ∧
    (∀ r, r ≠ "A" →
      alGet (alSet roomW.playerScores "A"
        ({ name := "A", avatar := none, points := 12, previousPoints := 2,
           correctAnswers := 3 })) r =
      alGet roomW.playerScores r) ∧
    handleUpdateScore stW "R" "Z" 9 9 = (stW, []) :=
  updateScore_overwrites_one_entry stW "R" "A" "Z" 12 3 9 9 roomW
    { name := "A", avatar := none, points := 7, previousPoints := 2,
      correctAnswers := 1 }
    (by decide) (by decide) (by decide)

/-! ### C8: round recovery -/

/-- C8: a get-current-round issued after a host-start-round on the same
still-existing room returns the stored song, choices and answer exactly
(the whole stored payload) together with the authoritative currentRound;
on a room that never stored a round it emits one null payload to the
requester only. -/
theorem getCurrentRound_recovers_round (now now2 : Nat) (st : ServerState)
    (sid sid2 sid3 code code0 : String) (data : RoundData)
    (startTime : Option Nat) (room room0 : Room)
    (st1 : ServerState) (ems : List Emission)
    (h : alGet st.rooms code = some room)
    (happly : applyEvent now st (Event.hostStartRound sid code data startTime) =
      Except.ok (st1, ems))
    (h0 : alGet st.rooms code0 = some room0)
    (hnone : room0.currentRoundData = none) :
    (∃ room1, alGet st1.rooms code = some room1 ∧
        room1.currentRoundData = some data ∧
        handleGetCurrentRound now2 st1 sid2 code =
          (st1, [⟨Target.toSocket sid2, "current-round",
            Payload.currentRoundData data room1.currentRound
              (jsOr room1.roundStartTime now2)⟩])) ∧
    handleGetCurrentRound now2 st sid3 code0 =
      (st, [⟨Target.toSocket sid3, "current-round",
        Payload.currentRoundNull⟩]) := by
  constructor
  · simp only [applyEvent, handleHostStartRound, h] at happly
    injection happly with hpair
    rw [Prod.mk.injEq] at hpair
    obtain ⟨hst1, -⟩ := hpair
    subst hst1
    dsimp only
    refine ⟨_, alGet_alSet_self _ _ _, rfl, ?_⟩
    simp only [handleGetCurrentRound, alGet_alSet_self]
    by_cases hcr : room.currentRound = 0 <;> simp [natOr, hcr]
  · simp only [handleGetCurrentRound, h0, hnone]

/-- Witness for C8: start a round in the concrete room, recover it; the
same room before the round has no stored payload and yields null. -/
theorem getCurrentRound_recovers_round_witness :
    (∃ room1,
        alGet (handleHostStartRound 100 stW "R" rdW (some 60)).1.rooms "R" =
          some room1 ∧
        room1.currentRoundData = some rdW ∧
        handleGetCurrentRound 200 (handleHostStartRound 100 stW "R" rdW
            (some 60)).1 "s2" "R" =
          ((handleHostStartRound 100 stW "R" rdW (some 60)).1,
            [⟨Target.toSocket "s2", "current-round",
              Payload.currentRoundData rdW room1.currentRound
                (jsOr room1.roundStartTime 200)⟩])) ∧
    handleGetCurrentRound 200 stW "s3" "R" =
      (stW, [⟨Target.toSocket "s3", "current-round",
        Payload.currentRoundNull⟩]) :=
  getCurrentRound_recovers_round 100 200 stW "s1" "s2" "s3" "R" "R" rdW
    (some 60) roomW roomW (handleHostStartRound 100 stW "R" rdW (some 60)).1
    (handleHostStartRound 100 stW "R" rdW (some 60)).2
    (by decide) rfl (by decide) (by decide)

/-! ### C1: join validation failures -/

/-- C1 counterexample: in the full room R (host A on socket s1), a join
naming A from socket s3 emits join-error, yet the room is not exactly as
before — hostSocketId has been re-bound to s3. -/
theorem joinError_rebinds_hostSocketId :
    ((handleJoin stW "s3" "R" "A" none).2.map Emission.event =
      ["join-error"]) ∧
    ((alGet (handleJoin stW "s3" "R" "A" none).1.rooms "R").map
      Room.hostSocketId = some "s3") ∧
    ((alGet stW.rooms "R").map Room.hostSocketId = some "s1") ∧
    ((alGet stW.rooms "R").map (fun r => r.players.length) = some 2) ∧
    ((alGet stW.rooms "R").map Room.maxPlayers = some 2) := by
  decide

/-- C1 amended: a join that fails validation (room full, or duplicate
name) on an existing room emits exactly one join-error to the requester
and leaves players, playerScores, host and all round fields unchanged;
hostSocketId alone is re-bound to the requesting connection when the
supplied name equals the stored host name (it is unchanged otherwise). -/
theorem join_validation_error_frame (st : ServerState)
    (sid code playerName : String) (avatar : Option String) (room : Room)
    (h : alGet st.rooms code = some room)
    (hfail : room.players.length ≥ room.maxPlayers ∨
      playerName ∈ room.players) :
    ∃ msg, handleJoin st sid code playerName avatar =
      ({ st with
         rooms := alSet st.rooms code
                    ({ room with
                       hostSocketId :=
                         if room.host = playerName then sid
                         else room.hostSocketId }) },
        [⟨Target.toSocket sid, "join-error", Payload.joinError msg⟩]) := by
  unfold handleJoin
  rw [h]
  dsimp only
  by_cases hh : room.host = playerName
  · by_cases hfull : room.players.length ≥ room.maxPlayers
    · exact ⟨"Room is full! (" ++ toString room.players.length ++ "/" ++
        toString room.maxPlayers ++ " players)", by simp [hh, hfull]⟩
    · have hmem : playerName ∈ room.players := hfail.resolve_left hfull
      exact ⟨"Player name " ++ playerName ++ " is already in this room!",
        by simp [hh, hfull, hmem]⟩
  · by_cases hfull : room.players.length ≥ room.maxPlayers
    · exact ⟨"Room is full! (" ++ toString room.players.length ++ "/" ++
        toString room.maxPlayers ++ " players)", by simp [hh, hfull]⟩
    · have hmem : playerName ∈ room.players := hfail.resolve_left hfull
      exact ⟨"Player name " ++ playerName ++ " is already in this room!",
        by simp [hh, hfull, hmem]⟩

/-- Witness for C1 amended: the concrete full-room join by the host
name. -/
theorem join_validation_error_frame_witness :
    ∃ msg, handleJoin stW "s3" "R" "A" none =
      ({ stW with
         rooms := alSet stW.rooms "R"
                    ({ roomW with
                       hostSocketId :=
                         if roomW.host = "A" then "s3"
                         else roomW.hostSocketId }) },
        [⟨Target.toSocket "s3", "join-error", Payload.joinError msg⟩]) :=
  join_validation_error_frame stW "s3" "R" "A" none roomW (by decide)
    (Or.inl (by decide))

/-! ### C2: unknown room code on host-continue-round -/

/-- C2 failing input: host-continue-round naming a room code absent from
the registry runs the guarded mutation as a no-op but then builds the
broadcast payload from the undefined room, throwing a TypeError instead
of completing with at most a room-scoped error event. -/
theorem hostContinueRound_unknown_room_throws :
    (alGet stW.rooms "NOPE" = none) ∧
    applyEvent 100 stW (Event.hostContinueRound "s1" "NOPE" 2 5) =
      Except.error
        "TypeError: cannot read properties of undefined (reading settings)" :=
  ⟨rfl, rfl⟩

/-! ### C3: host-only authorization -/

/-- C3 counterexample: start-game sent from socket s2 (stored player B,
neither the stored hostSocketId s1 nor named host A) is not ignored — it
resets the room round counter from 2 to 1. -/
theorem startGame_nonHost_not_ignored :
    ((alGet stW.rooms "R").map Room.hostSocketId = some "s1") ∧
    ((alGet stW.sockets "s2").bind SocketInfo.playerName = some "B") ∧
    ((alGet stW.rooms "R").map Room.host = some "A") ∧
    ((alGet stW.rooms "R").map Room.currentRound = some 2) ∧
    ((applyEvent 0 stW (Event.startGame "s2" "R")).map
      (fun r => (alGet r.1.rooms "R").map Room.currentRound) =
      Except.ok (some 1)) :=
  ⟨rfl, rfl, rfl, rfl, rfl⟩

/-- C3 amended: of the host-only events only host-skip-round checks its
sender; a host-skip-round from a connection that is neither the stored
hostSocketId nor identified by the stored host name is silently ignored —
no room state changes and nothing is emitted (the other host-only events
take effect regardless of sender, as the counterexample shows). -/
theorem hostSkipRound_nonHost_ignored (st : ServerState) (sid code : String)
    (room : Room) (h : alGet st.rooms code = some room)
    (hsid : room.hostSocketId ≠ sid)
    (hname : (alGet st.sockets sid).bind SocketInfo.playerName ≠
      some room.host) :
    handleHostSkipRound st sid code = (st, []) := by
  unfold handleHostSkipRound
  rw [h]
  dsimp only
  rw [if_neg]
  rintro (h1 | h2)
  · exact hsid h1
  · exact hname h2

/-- Witness for C3 amended: s2 (player B) tries to skip in the concrete
room hosted by A on s1. -/
theorem hostSkipRound_nonHost_ignored_witness :
    handleHostSkipRound stW "s2" "R" = (stW, []) :=
  hostSkipRound_nonHost_ignored stW "s2" "R" roomW (by decide) (by decide)
    (by decide)

/-! ### C9: the leave-cleanup path is idempotent -/

theorem leave_noop_of_no_code (st : ServerState) (sid : String)
    (h : leaveRoomCode st sid = none) :
    handlePlayerLeaving st sid = (st, []) := by
  simp only [handlePlayerLeaving, h]

theorem leave_noop_of_no_room (st : ServerState) (sid c : String)
    (hc : leaveRoomCode st sid = some c) (h : alGet st.rooms c = none) :
    handlePlayerLeaving st sid = (st, []) := by
  simp only [handlePlayerLeaving, hc, h]

theorem leave_noop_of_no_name (st : ServerState) (sid c : String)
    (room : Room) (hc : leaveRoomCode st sid = some c)
    (h : alGet st.rooms c = some room)
    (hn : (leaveSocket st sid).playerName = none) :
    handlePlayerLeaving st sid = (st, []) := by
  simp only [handlePlayerLeaving, hc, h, hn]

theorem leave_noop_of_not_member (st : ServerState) (sid c p : String)
    (room : Room) (hc : leaveRoomCode st sid = some c)
    (h : alGet st.rooms c = some room)
    (hn : (leaveSocket st sid).playerName = some p)
    (hm : p ∉ room.players) :
    handlePlayerLeaving st sid = (st, []) := by
  simp only [handlePlayerLeaving, hc, h, hn]
  rw [if_neg hm]

/-- After a leave that did remove a player, the session registries hold
no trace of the connection: its socket fields are cleared and its
playerRooms entry is gone. -/
theorem leave_action_registries (st : ServerState) (sid c p : String)
    (room : Room) (hc : leaveRoomCode st sid = some c)
    (h : alGet st.rooms c = some room)
    (hn : (leaveSocket st sid).playerName = some p)
    (hm : p ∈ room.players) :
    (handlePlayerLeaving st sid).1.sockets =
      alSet st.sockets sid { playerName := none, roomCode := none } ∧
    (handlePlayerLeaving st sid).1.playerRooms =
      alDelete st.playerRooms sid := by
  simp only [handlePlayerLeaving, hc, h, hn]
  rw [if_pos hm]
  cases hp : setRemove room.players p <;> simp

/-- C9: running the leave-cleanup path twice for the same connection is
running it once: the second invocation mutates no registry, session or
room state and emits nothing. -/
theorem leave_cleanup_idempotent (st : ServerState) (sid : String) :
    handlePlayerLeaving (handlePlayerLeaving st sid).1 sid =
      ((handlePlayerLeaving st sid).1, []) := by
  cases hc : leaveRoomCode st sid with
  | none =>
      rw [leave_noop_of_no_code st sid hc]
      exact leave_noop_of_no_code st sid hc
  | some c =>
      cases hroom : alGet st.rooms c with
      | none =>
          rw [leave_noop_of_no_room st sid c hc hroom]
          exact leave_noop_of_no_room st sid c hc hroom
      | some room =>
          cases hn : (leaveSocket st sid).playerName with
          | none =>
              rw [leave_noop_of_no_name st sid c room hc hroom hn]
              exact leave_noop_of_no_name st sid c room hc hroom hn
          | some p =>
              by_cases hm : p ∈ room.players
              · obtain ⟨hs, hp⟩ :=
                  leave_action_registries st sid c p room hc hroom hn hm
                apply leave_noop_of_no_code
                simp [leaveRoomCode, leaveSocket, hs, hp, alGet_alSet_self,
                  alGet_alDelete]
              · rw [leave_noop_of_not_member st sid c p room hc hroom hn hm]
                exact leave_noop_of_not_member st sid c p room hc hroom hn hm

/-! ### C6: deterministic host succession -/

/-- C6: when the current host leaves a room that keeps at least one
player, the new host is the earliest-joined survivor (the first entry of
players after removal), and exactly one hostChanged broadcast goes to the
room channel, carrying that player as newHost. -/
theorem host_succession_first_survivor (st : ServerState)
    (sid c p q : String) (rest : List String) (room : Room)
    (hc : leaveRoomCode st sid = some c)
    (h : alGet st.rooms c = some room)
    (hn : (leaveSocket st sid).playerName = some p)
    (hm : p ∈ room.players)
    (hhost : room.host = p)
    (hq : setRemove room.players p = q :: rest) :
    (∃ room2, alGet (handlePlayerLeaving st sid).1.rooms c = some room2 ∧
      room2.host = q ∧ room2.players = q :: rest) ∧
    ((handlePlayerLeaving st sid).2.countP
      (fun em => em.event == "hostChanged") = 1) ∧
    (∀ em ∈ (handlePlayerLeaving st sid).2, em.event = "hostChanged" →
      em.target = Target.toRoom c ∧ ∃ hid,
        em.payload = Payload.hostChanged q hid (q ++ " is now the host")) := by
  simp only [handlePlayerLeaving, hc, h, hn]
  rw [if_pos hm, hq]
  dsimp only
  simp only [if_pos hhost]
  refine ⟨⟨_, alGet_alSet_self _ _ _, rfl, rfl⟩, ?_, ?_⟩
  · by_cases hscore :
      (alDelete room.playerScores p).length > 0 <;>
      simp [hscore, List.countP_cons, List.countP_append]
  · intro em hmem hev
    by_cases hscore : (alDelete room.playerScores p).length > 0 <;>
      simp [hscore] at hmem <;>
      rcases hmem with rfl | rfl | rfl | rfl | rfl <;>
      simp_all


/-- Witness for C6: host A (socket s1) leaves the concrete two-player
room; B, the earliest-joined survivor, becomes host and one hostChanged
broadcast goes to the room. -/
theorem host_succession_first_survivor_witness :
    (∃ room2, alGet (handlePlayerLeaving stW "s1").1.rooms "R" = some room2 ∧
      room2.host = "B" ∧ room2.players = ["B"]) ∧
    ((handlePlayerLeaving stW "s1").2.countP
      (fun em => em.event == "hostChanged") = 1) ∧
    (∀ em ∈ (handlePlayerLeaving stW "s1").2, em.event = "hostChanged" →
      em.target = Target.toRoom "R" ∧ ∃ hid,
        em.payload = Payload.hostChanged "B" hid ("B" ++ " is now the host")) :=
  host_succession_first_survivor stW "s1" "R" "A" "B" [] roomW (by decide)
    (by decide) (by decide) (by decide) (by decide) (by decide)

/-! ### C4: the finished-players invariant -/

theorem createRoom_preserves_inv (st : ServerState) (sid code : String)
    (settings : Settings) (host : String) (avatar : Option String)
    (hInv : RoomsInv st.rooms) :
    RoomsInv (handleCreateRoom st sid code settings host avatar).1.rooms := by
  unfold handleCreateRoom
  by_cases hex : (alGet st.rooms code).isSome
  · rw [if_pos hex]
    exact hInv
  · rw [if_neg hex]
    split_ifs <;> exact roomsInv_alSet hInv ⟨List.nodup_nil, by simp⟩

theorem join_preserves_inv (st : ServerState) (sid code playerName : String)
    (avatar : Option String) (hInv : RoomsInv st.rooms) :
    RoomsInv (handleJoin st sid code playerName avatar).1.rooms := by
  cases h : alGet st.rooms code with
  | none =>
      simp only [handleJoin, h]
      exact hInv
  | some room =>
      have hfin := roomsInv_get hInv h
      simp only [handleJoin, h]
      generalize hg : (if room.host = playerName
        then { room with hostSocketId := sid } else room) = room1
      have hfin1 : FinishedInv room1 := by
        rw [← hg]
        by_cases hh : room.host = playerName
        · rw [if_pos hh]
          exact ⟨hfin.1, hfin.2⟩
        · rw [if_neg hh]
          exact hfin
      split_ifs <;>
        first
          | exact roomsInv_alSet hInv hfin1
          | exact roomsInv_alSet (roomsInv_alSet hInv hfin1)
              ⟨hfin1.1, fun x hx => List.mem_append_left _ (hfin1.2 x hx)⟩

theorem updateScore_preserves_inv (st : ServerState) (code p : String)
    (pts ca : Int) (hInv : RoomsInv st.rooms) :
    RoomsInv (handleUpdateScore st code p pts ca).1.rooms := by
  cases h : alGet st.rooms code with
  | none =>
      simp only [handleUpdateScore, h]
      exact hInv
  | some room =>
      have hfin := roomsInv_get hInv h
      cases hp : alGet room.playerScores p with
      | none =>
          simp only [handleUpdateScore, h, hp]
          exact hInv
      | some ps =>
          simp only [handleUpdateScore, h, hp]
          exact roomsInv_alSet hInv ⟨hfin.1, hfin.2⟩

theorem startGame_preserves_inv (st : ServerState) (code : String)
    (hInv : RoomsInv st.rooms) :
    RoomsInv (handleStartGame st code).1.rooms := by
  cases h : alGet st.rooms code with
  | none =>
      simp only [handleStartGame, h]
      exact hInv
  | some room =>
      have hfin := roomsInv_get hInv h
      simp only [handleStartGame, h]
      exact roomsInv_alSet hInv ⟨hfin.1, hfin.2⟩

theorem hostStartRound_preserves_inv (now : Nat) (st : ServerState)
    (code : String) (data : RoundData) (startTime : Option Nat)
    (hInv : RoomsInv st.rooms) :
    RoomsInv (handleHostStartRound now st code data startTime).1.rooms := by
  cases h : alGet st.rooms code with
  | none =>
      simp only [handleHostStartRound, h]
      exact hInv
  | some room =>
      simp only [handleHostStartRound, h]
      exact roomsInv_alSet hInv ⟨List.nodup_nil, by simp⟩

theorem playerFinished_preserves_inv (st : ServerState) (code pl : String)
    (hInv : RoomsInv st.rooms)
    (hmem : ∀ room, alGet st.rooms code = some room → pl ∈ room.players) :
    RoomsInv (handlePlayerFinishedRound st code pl).1.rooms := by
  cases h : alGet st.rooms code with
  | none =>
      simp only [handlePlayerFinishedRound, h]
      exact hInv
  | some room =>
      have hfin := roomsInv_get hInv h
      simp only [handlePlayerFinishedRound, h]
      refine roomsInv_alSet hInv ⟨nodup_setAdd hfin.1, ?_⟩
      intro x hx
      rcases mem_setAdd.1 hx with h1 | rfl
      · exact hfin.2 x h1
      · exact hmem room h

theorem hostSkip_preserves_inv (st : ServerState) (sid code : String)
    (hInv : RoomsInv st.rooms) :
    RoomsInv (handleHostSkipRound st sid code).1.rooms := by
  cases h : alGet st.rooms code with
  | none =>
      simp only [handleHostSkipRound, h]
      exact hInv
  | some room =>
      simp only [handleHostSkipRound, h]
      split_ifs
      · exact roomsInv_alSet hInv
          ⟨nodup_dedupFirst _, fun x hx => mem_dedupFirst hx⟩
      · exact hInv

theorem continueRound_preserves_inv (now : Nat) (st : ServerState)
    (code : String) (nextRound : Nat) (st1 : ServerState)
    (ems : List Emission) (hInv : RoomsInv st.rooms)
    (h : handleHostContinueRound now st code nextRound =
      Except.ok (st1, ems)) :
    RoomsInv st1.rooms := by
  cases hr : alGet st.rooms code with
  | none =>
      simp only [handleHostContinueRound, hr] at h
      cases h
  | some room =>
      simp only [handleHostContinueRound, hr] at h
      have hst1 := ok_state_eq h
      rw [← hst1]
      exact roomsInv_alSet hInv ⟨List.nodup_nil, by simp⟩

theorem leave_preserves_inv (st : ServerState) (sid : String)
    (hInv : RoomsInv st.rooms) :
    RoomsInv (handlePlayerLeaving st sid).1.rooms := by
  cases hc : leaveRoomCode st sid with
  | none =>
      rw [leave_noop_of_no_code st sid hc]
      exact hInv
  | some c =>
      cases hroom : alGet st.rooms c with
      | none =>
          rw [leave_noop_of_no_room st sid c hc hroom]
          exact hInv
      | some room =>
          cases hn : (leaveSocket st sid).playerName with
          | none =>
              rw [leave_noop_of_no_name st sid c room hc hroom hn]
              exact hInv
          | some p =>
              by_cases hm : p ∈ room.players
              · have hfin := roomsInv_get hInv hroom
                simp only [handlePlayerLeaving, hc, hroom, hn]
                rw [if_pos hm]
                cases hrem : setRemove room.players p with
                | nil => exact roomsInv_alDelete hInv
                | cons qh qt =>
                    refine roomsInv_alSet hInv ⟨nodup_setRemove hfin.1, ?_⟩
                    intro x hx
                    have hx1 := mem_setRemove hx
                    have hxp : x ≠ p := by
                      intro hxp
                      subst hxp
                      exact not_mem_setRemove_self hfin.1 hx
                    rw [← hrem]
                    exact mem_setRemove_of_ne (hfin.2 x hx1) hxp
              · rw [leave_noop_of_not_member st sid c p room hc hroom hn hm]
                exact hInv

/-- C4 amended: finishedPlayers (a duplicate-free set) stays a subset of
players across every event of the surface, provided each
player-finished-round names a current member of its room — the handler
itself records the supplied name with no membership check, and the leave
path removes a leaver from both lists, which is what preserves the
invariant there. -/
theorem finished_subset_preserved (now : Nat) (st : ServerState) (e : Event)
    (st1 : ServerState) (ems : List Emission)
    (hInv : RoomsInv st.rooms)
    (hnames : EventNamesMember st e)
    (happly : applyEvent now st e = Except.ok (st1, ems)) :
    RoomsInv st1.rooms := by
  cases e with
  | createRoom sid code settings host avatar =>
      rw [← ok_state_eq happly]
      exact createRoom_preserves_inv st sid code settings host avatar hInv
  | join sid code playerName avatar =>
      rw [← ok_state_eq happly]
      exact join_preserves_inv st sid code playerName avatar hInv
  | getRoomPlayersScores sid code =>
      rw [← ok_state_eq happly, getRoomPlayersScores_state]
      exact hInv
  | getTotalRounds sid code =>
      rw [← ok_state_eq happly, getTotalRounds_state]
      exact hInv
  | getRooms sid code =>
      rw [← ok_state_eq happly]
      exact hInv
  | updateScore sid code playerName points correctAnswers =>
      rw [← ok_state_eq happly]
      exact updateScore_preserves_inv st code playerName points
        correctAnswers hInv
  | startGame sid code =>
      rw [← ok_state_eq happly]
      exact startGame_preserves_inv st code hInv
  | hostStartRound sid code data startTime =>
      rw [← ok_state_eq happly]
      exact hostStartRound_preserves_inv now st code data startTime hInv
  | playerFinishedRound sid code pl =>
      rw [← ok_state_eq happly]
      exact playerFinished_preserves_inv st code pl hInv
        (fun room h => hnames sid code pl rfl room h)
  | hostSkipRound sid code =>
      rw [← ok_state_eq happly]
      exact hostSkip_preserves_inv st sid code hInv
  | hostContinueRound sid code nextRound totalRounds =>
      exact continueRound_preserves_inv now st code nextRound st1 ems hInv
        happly
  | hostEndGame sid code =>
      rw [← ok_state_eq happly]
      exact hInv
  | getCurrentRound sid code =>
      rw [← ok_state_eq happly, getCurrentRound_state]
      exact hInv
  | leaveRoom sid =>
      rw [← ok_state_eq happly]
      exact leave_preserves_inv st sid hInv
  | disconnect sid =>
      rw [← ok_state_eq happly]
      exact leave_preserves_inv st sid hInv

/-- C4 counterexample: from a fresh room R with the single player A, a
player-finished-round naming B (never a member) is recorded, reaching a
state with finishedPlayers = [B] while players = [A]. -/
theorem playerFinished_records_nonMember :
    (applyEvents 100 st0 (traceSetup.take 2 ++
        [Event.startGame "s1" "R",
         Event.playerFinishedRound "s1" "R" "B"])).map
      (fun r => (alGet r.1.rooms "R").map
        (fun room => (room.finishedPlayers, room.players))) =
      Except.ok (some (["B"], ["A"])) ∧
    ¬ ("B" ∈ (["A"] : List String)) :=
  ⟨rfl, by decide⟩

/-- Witness for C4 amended: a member-naming finished event applied to the
concrete state preserves the invariant. -/
theorem finished_subset_preserved_witness :
    RoomsInv (handlePlayerFinishedRound stW "R" "A").1.rooms :=
  finished_subset_preserved 100 stW
    (Event.playerFinishedRound "s1" "R" "A")
    (handlePlayerFinishedRound stW "R" "A").1
    (handlePlayerFinishedRound stW "R" "A").2
    (by
      intro e he
      simp only [stW, List.mem_singleton] at he
      rw [he]
      exact ⟨by decide, by decide⟩)
    (by
      intro sid code pl heq room hroom
      injection heq with h1 h2 h3
      subst h2
      subst h3
      have hx := alGet_mem hroom
      simp only [stW, List.mem_singleton] at hx
      injection hx with ha hb
      rw [hb]
      decide)
    rfl

/-! ### C7: how currentRound changes -/

theorem currentRound_of_alSet {l : List (String × Room)} {code c : String}
    {v room room1 : Room}
    (h : alGet l c = some room)
    (h1 : alGet (alSet l code v) c = some room1)
    (hv : code = c → v.currentRound = room.currentRound) :
    room1.currentRound = room.currentRound := by
  rcases alGet_alSet_cases h1 with ⟨hcc, hr⟩ | ⟨hcc, hr⟩
  · rw [hr]
    exact hv hcc
  · rw [h] at hr
    rw [Option.some.inj hr]

theorem currentRound_of_alSet2 {l : List (String × Room)} {code c : String}
    {v w room room1 : Room}
    (h : alGet l c = some room)
    (h1 : alGet (alSet (alSet l code v) code w) c = some room1)
    (hv : code = c → w.currentRound = room.currentRound) :
    room1.currentRound = room.currentRound := by
  rcases alGet_alSet_cases h1 with ⟨hcc, hr⟩ | ⟨hcc, hr⟩
  · rw [hr]
    exact hv hcc
  · rw [alGet_alSet, if_neg hcc, h] at hr
    rw [Option.some.inj hr]

theorem createRoom_currentRound (st : ServerState) (sid code : String)
    (settings : Settings) (host : String) (avatar : Option String)
    (c : String) (room room1 : Room)
    (h : alGet st.rooms c = some room)
    (h1 : alGet (handleCreateRoom st sid code settings host avatar).1.rooms
      c = some room1) :
    room1.currentRound = room.currentRound := by
  unfold handleCreateRoom at h1
  by_cases hex : (alGet st.rooms code).isSome
  · rw [if_pos hex] at h1
    rw [h] at h1
    rw [Option.some.inj h1]
  · rw [if_neg hex] at h1
    refine currentRound_of_alSet h h1 ?_
    intro hcc
    subst hcc
    rw [h] at hex
    simp at hex

theorem join_currentRound (st : ServerState) (sid code playerName : String)
    (avatar : Option String) (c : String) (room room1 : Room)
    (h : alGet st.rooms c = some room)
    (h1 : alGet (handleJoin st sid code playerName avatar).1.rooms c =
      some room1) : room1.currentRound = room.currentRound := by
  cases hr : alGet st.rooms code with
  | none =>
      simp only [handleJoin, hr] at h1
      rw [h] at h1
      rw [Option.some.inj h1]
  | some roomX =>
      have hxcr : code = c → roomX.currentRound = room.currentRound := by
        intro hcc
        subst hcc
        rw [h] at hr
        rw [Option.some.inj hr]
      simp only [handleJoin, hr] at h1
      generalize hg : (if roomX.host = playerName
        then { roomX with hostSocketId := sid } else roomX) = roomY at h1
      have hycr : roomY.currentRound = roomX.currentRound := by
        rw [← hg]
        by_cases hh : roomX.host = playerName
        · rw [if_pos hh]
        · rw [if_neg hh]
      split_ifs at h1 <;>
        first
          | exact currentRound_of_alSet h h1
              (fun hcc => hycr.trans (hxcr hcc))
          | exact currentRound_of_alSet2 h h1
              (fun hcc => hycr.trans (hxcr hcc))

theorem updateScore_currentRound (st : ServerState) (code p : String)
    (pts ca : Int) (c : String) (room room1 : Room)
    (h : alGet st.rooms c = some room)
    (h1 : alGet (handleUpdateScore st code p pts ca).1.rooms c =
      some room1) : room1.currentRound = room.currentRound := by
  cases hr : alGet st.rooms code with
  | none =>
      simp only [handleUpdateScore, hr] at h1
      rw [h] at h1
      rw [Option.some.inj h1]
  | some roomX =>
      cases hp : alGet roomX.playerScores p with
      | none =>
          simp only [handleUpdateScore, hr, hp] at h1
          rw [h] at h1
          rw [Option.some.inj h1]
      | some ps =>
          simp only [handleUpdateScore, hr, hp] at h1
          refine currentRound_of_alSet h h1 ?_
          intro hcc
          subst hcc
          rw [h] at hr
          rw [Option.some.inj hr]

theorem startGame_currentRound (st : ServerState) (code c : String)
    (room room1 : Room)
    (h : alGet st.rooms c = some room)
    (h1 : alGet (handleStartGame st code).1.rooms c = some room1) :
    (code = c ∧ room1.currentRound = 1) ∨
      room1.currentRound = room.currentRound := by
  cases hr : alGet st.rooms code with
  | none =>
      simp only [handleStartGame, hr] at h1
      right
      rw [h] at h1
      rw [Option.some.inj h1]
  | some roomX =>
      simp only [handleStartGame, hr] at h1
      rcases alGet_alSet_cases h1 with ⟨hcc, hrr⟩ | ⟨hcc, hrr⟩
      · left
        exact ⟨hcc, by rw [hrr]⟩
      · right
        rw [h] at hrr
        rw [Option.some.inj hrr]

theorem hostStartRound_currentRound (now : Nat) (st : ServerState)
    (code : String) (data : RoundData) (startTime : Option Nat)
    (c : String) (room room1 : Room)
    (h : alGet st.rooms c = some room)
    (h1 : alGet (handleHostStartRound now st code data startTime).1.rooms c =
      some room1) :
    (code = c ∧ room1.currentRound = natOr room.currentRound 1) ∨
      room1.currentRound = room.currentRound := by
  cases hr : alGet st.rooms code with
  | none =>
      simp only [handleHostStartRound, hr] at h1
      right
      rw [h] at h1
      rw [Option.some.inj h1]
  | some roomX =>
      simp only [handleHostStartRound, hr] at h1
      rcases alGet_alSet_cases h1 with ⟨hcc, hrr⟩ | ⟨hcc, hrr⟩
      · left
        refine ⟨hcc, ?_⟩
        rw [hrr]
        subst hcc
        rw [h] at hr
        rw [Option.some.inj hr]
      · right
        rw [h] at hrr
        rw [Option.some.inj hrr]

theorem playerFinished_currentRound (st : ServerState) (code pl : String)
    (c : String) (room room1 : Room)
    (h : alGet st.rooms c = some room)
    (h1 : alGet (handlePlayerFinishedRound st code pl).1.rooms c =
      some room1) : room1.currentRound = room.currentRound := by
  cases hr : alGet st.rooms code with
  | none =>
      simp only [handlePlayerFinishedRound, hr] at h1
      rw [h] at h1
      rw [Option.some.inj h1]
  | some roomX =>
      simp only [handlePlayerFinishedRound, hr] at h1
      refine currentRound_of_alSet h h1 ?_
      intro hcc
      subst hcc
      rw [h] at hr
      rw [Option.some.inj hr]

theorem hostSkip_currentRound (st : ServerState) (sid code c : String)
    (room room1 : Room)
    (h : alGet st.rooms c = some room)
    (h1 : alGet (handleHostSkipRound st sid code).1.rooms c = some room1) :
    room1.currentRound = room.currentRound := by
  cases hr : alGet st.rooms code with
  | none =>
      simp only [handleHostSkipRound, hr] at h1
      rw [h] at h1
      rw [Option.some.inj h1]
  | some roomX =>
      simp only [handleHostSkipRound, hr] at h1
      split_ifs at h1
      · refine currentRound_of_alSet h h1 ?_
        intro hcc
        subst hcc
        rw [h] at hr
        rw [Option.some.inj hr]
      · rw [h] at h1
        rw [Option.some.inj h1]

theorem continueRound_currentRound (now : Nat) (st : ServerState)
    (code : String) (n : Nat) (st1 : ServerState) (ems : List Emission)
    (c : String) (room room1 : Room)
    (h : alGet st.rooms c = some room)
    (happly : handleHostContinueRound now st code n = Except.ok (st1, ems))
    (h1 : alGet st1.rooms c = some room1) :
    (code = c ∧ room1.currentRound = n) ∨
      room1.currentRound = room.currentRound := by
  cases hr : alGet st.rooms code with
  | none =>
      simp only [handleHostContinueRound, hr] at happly
      cases happly
  | some roomX =>
      simp only [handleHostContinueRound, hr] at happly
      rw [← ok_state_eq happly] at h1
      rcases alGet_alSet_cases h1 with ⟨hcc, hrr⟩ | ⟨hcc, hrr⟩
      · left
        exact ⟨hcc, by rw [hrr]⟩
      · right
        rw [h] at hrr
        rw [Option.some.inj hrr]

theorem leave_currentRound (st : ServerState) (sid c : String)
    (room room1 : Room)
    (h : alGet st.rooms c = some room)
    (h1 : alGet (handlePlayerLeaving st sid).1.rooms c = some room1) :
    room1.currentRound = room.currentRound := by
  cases hc : leaveRoomCode st sid with
  | none =>
      rw [leave_noop_of_no_code st sid hc] at h1
      rw [h] at h1
      rw [Option.some.inj h1]
  | some rc =>
      cases hroom : alGet st.rooms rc with
      | none =>
          rw [leave_noop_of_no_room st sid rc hc hroom] at h1
          rw [h] at h1
          rw [Option.some.inj h1]
      | some roomX =>
          cases hn : (leaveSocket st sid).playerName with
          | none =>
              rw [leave_noop_of_no_name st sid rc roomX hc hroom hn] at h1
              rw [h] at h1
              rw [Option.some.inj h1]
          | some p =>
              by_cases hm : p ∈ roomX.players
              · simp only [handlePlayerLeaving, hc, hroom, hn] at h1
                rw [if_pos hm] at h1
                cases hrem : setRemove roomX.players p with
                | nil =>
                    rw [hrem] at h1
                    rcases alGet_alDelete_cases h1 with ⟨hcc, hrr⟩
                    rw [h] at hrr
                    rw [Option.some.inj hrr]
                | cons qh qt =>
                    rw [hrem] at h1
                    refine currentRound_of_alSet h h1 ?_
                    intro hcc
                    subst hcc
                    rw [h] at hroom
                    rw [Option.some.inj hroom]
              · rw [leave_noop_of_not_member st sid rc p roomX hc hroom hn
                  hm] at h1
                rw [h] at h1
                rw [Option.some.inj h1]

/-- C7 amended: currentRound is host-authoritative, not monotonic. For a
room that exists before and after an event, currentRound is unchanged by
every event except: host-continue-round on that room sets it to exactly
the host-supplied nextRound (which may be lower), start-game on that room
resets it to 1, and host-start-round on that room applies the
zero-defaults-to-1 clamp (which never lowers it). -/
theorem currentRound_changes_characterized (now : Nat) (st : ServerState)
    (e : Event) (st1 : ServerState) (ems : List Emission) (c : String)
    (room room1 : Room)
    (h : alGet st.rooms c = some room)
    (happly : applyEvent now st e = Except.ok (st1, ems))
    (h1 : alGet st1.rooms c = some room1) :
    room1.currentRound = room.currentRound ∨
    (∃ sid n t, e = Event.hostContinueRound sid c n t ∧
      room1.currentRound = n) ∨
    (∃ sid, e = Event.startGame sid c ∧ room1.currentRound = 1) ∨
    (∃ sid data startTime,
      e = Event.hostStartRound sid c data startTime ∧
      room1.currentRound = natOr room.currentRound 1) := by
  cases e with
  | createRoom sid code settings host avatar =>
      rw [← ok_state_eq happly] at h1
      exact Or.inl (createRoom_currentRound st sid code settings host avatar
        c room room1 h h1)
  | join sid code playerName avatar =>
      rw [← ok_state_eq happly] at h1
      exact Or.inl (join_currentRound st sid code playerName avatar c room
        room1 h h1)
  | getRoomPlayersScores sid code =>
      rw [← ok_state_eq happly, getRoomPlayersScores_state] at h1
      rw [h] at h1
      exact Or.inl (by rw [Option.some.inj h1])
  | getTotalRounds sid code =>
      rw [← ok_state_eq happly, getTotalRounds_state] at h1
      rw [h] at h1
      exact Or.inl (by rw [Option.some.inj h1])
  | getRooms sid code =>
      have hs : st = st1 := ok_state_eq happly
      rw [← hs, h] at h1
      exact Or.inl (by rw [Option.some.inj h1])
  | updateScore sid code playerName points correctAnswers =>
      rw [← ok_state_eq happly] at h1
      exact Or.inl (updateScore_currentRound st code playerName points
        correctAnswers c room room1 h h1)
  | startGame sid code =>
      rw [← ok_state_eq happly] at h1
      rcases startGame_currentRound st code c room room1 h h1 with
        ⟨hcc, hone⟩ | hpres
      · subst hcc
        exact Or.inr (Or.inr (Or.inl ⟨sid, rfl, hone⟩))
      · exact Or.inl hpres
  | hostStartRound sid code data startTime =>
      rw [← ok_state_eq happly] at h1
      rcases hostStartRound_currentRound now st code data startTime c room
        room1 h h1 with ⟨hcc, hone⟩ | hpres
      · subst hcc
        exact Or.inr (Or.inr (Or.inr ⟨sid, data, startTime, rfl, hone⟩))
      · exact Or.inl hpres
  | playerFinishedRound sid code pl =>
      rw [← ok_state_eq happly] at h1
      exact Or.inl (playerFinished_currentRound st code pl c room room1 h h1)
  | hostSkipRound sid code =>
      rw [← ok_state_eq happly] at h1
      exact Or.inl (hostSkip_currentRound st sid code c room room1 h h1)
  | hostContinueRound sid code nextRound totalRounds =>
      rcases continueRound_currentRound now st code nextRound st1 ems c room
        room1 h happly h1 with ⟨hcc, hone⟩ | hpres
      · subst hcc
        exact Or.inr (Or.inl ⟨sid, nextRound, totalRounds, rfl, hone⟩)
      · exact Or.inl hpres
  | hostEndGame sid code =>
      have hs : st = st1 := ok_state_eq happly
      rw [← hs, h] at h1
      exact Or.inl (by rw [Option.some.inj h1])
  | getCurrentRound sid code =>
      rw [← ok_state_eq happly, getCurrentRound_state] at h1
      rw [h] at h1
      exact Or.inl (by rw [Option.some.inj h1])
  | leaveRoom sid =>
      rw [← ok_state_eq happly] at h1
      exact Or.inl (leave_currentRound st sid c room room1 h h1)
  | disconnect sid =>
      rw [← ok_state_eq happly] at h1
      exact Or.inl (leave_currentRound st sid c room room1 h h1)

/-- C7 counterexample: a reachable run in which currentRound reaches 5
and a later host-continue-round lowers it to 2. -/
theorem currentRound_can_decrease :
    ((applyEvents 100 st0 (traceSetup ++
        [Event.startGame "s1" "R",
         Event.hostContinueRound "s1" "R" 5 5])).map
      (fun r => (alGet r.1.rooms "R").map Room.currentRound) =
      Except.ok (some 5)) ∧
    ((applyEvents 100 st0 (traceSetup ++
        [Event.startGame "s1" "R",
         Event.hostContinueRound "s1" "R" 5 5,
         Event.hostContinueRound "s1" "R" 2 5])).map
      (fun r => (alGet r.1.rooms "R").map Room.currentRound) =
      Except.ok (some 2)) ∧
    (2 < 5) :=
  ⟨rfl, rfl, by decide⟩

/-- Witness for C7 amended: a host-continue-round to round 1 on the
concrete room at round 2 lands in the nextRound disjunct. -/
theorem currentRound_changes_characterized_witness :
    ({ roomW with
       currentRound := 1
       isRoundActive := true
       isIntermission := false
       roundStartTime := some 100
       finishedPlayers := [] } : Room).currentRound = roomW.currentRound ∨
    (∃ sid n t, Event.hostContinueRound "s1" "R" 1 5 =
        Event.hostContinueRound sid "R" n t ∧
      ({ roomW with
         currentRound := 1
         isRoundActive := true
         isIntermission := false
         roundStartTime := some 100
         finishedPlayers := [] } : Room).currentRound = n) ∨
    (∃ sid, Event.hostContinueRound "s1" "R" 1 5 = Event.startGame sid "R" ∧
      ({ roomW with
         currentRound := 1
         isRoundActive := true
         isIntermission := false
         roundStartTime := some 100
         finishedPlayers := [] } : Room).currentRound = 1) ∨
    (∃ sid data startTime, Event.hostContinueRound "s1" "R" 1 5 =
        Event.hostStartRound sid "R" data startTime ∧
      ({ roomW with
         currentRound := 1
         isRoundActive := true
         isIntermission := false
         roundStartTime := some 100
         finishedPlayers := [] } : Room).currentRound =
        natOr roomW.currentRound 1) :=
  currentRound_changes_characterized 100 stW
    (Event.hostContinueRound "s1" "R" 1 5)
    { stW with
      rooms := alSet stW.rooms "R"
        ({ roomW with
           currentRound := 1
           isRoundActive := true
           isIntermission := false
           roundStartTime := some 100
           finishedPlayers := [] }) }
    [⟨Target.toRoom "R", "continue-to-next-round",
      Payload.continueToNextRound 1 1 roomW.settings roomW.players
        (roomW.playerScores.map Prod.snd) roomW.host true false
        (some 100)⟩]
    "R" roomW
    ({ roomW with
       currentRound := 1
       isRoundActive := true
       isIntermission := false
       roundStartTime := some 100
       finishedPlayers := [] })
    (by decide) rfl (by decide)

end GuessTheSong
